import Mathlib

/-
Shallow embedding of the node-level B+tree engine of this repository
(src/types/btree.go and the second source file src/unnamed/part_000).
A Go byte slice is modelled as a List Nat; every byte read takes the residue
modulo 256, matching the byte element type, and every quantity that Go
computes in uint16 arithmetic is reduced modulo 65536 at the places where the
Go code truncates.  Out-of-range writes via List.set are no-ops, matching the
clipping behaviour of the Go copy builtin; all evaluations below keep the
explicitly indexed accesses inside the buffers.
-/

namespace GoDB

abbrev Node := List Nat

def HEADER_SIZE : Nat := 4

def BTREE_PAGE_SIZE : Nat := 4096

def BTREE_MAX_KEY_SIZE : Nat := 1000

def BTREE_MAX_VAL_SIZE : Nat := 3000

def BNODE_INTERNAL_TYPE : Nat := 0

def BNODE_LEAF_TYPE : Nat := 1

/-- binary.LittleEndian.Uint16(buf[pos:]). -/
def readU16 (buf : List Nat) (pos : Nat) : Nat :=
  buf.getD pos 0 % 256 + 256 * (buf.getD (pos + 1) 0 % 256)

/-- binary.LittleEndian.PutUint16(buf[pos:], v); stores the low 16 bits of v. -/
def writeU16 (buf : List Nat) (pos v : Nat) : List Nat :=
  (buf.set pos (v % 256)).set (pos + 1) (v / 256 % 256)

/-- binary.LittleEndian.Uint64(buf[pos:]). -/
def readU64 (buf : List Nat) (pos : Nat) : Nat :=
  buf.getD pos 0 % 256 + 256 * (buf.getD (pos + 1) 0 % 256) +
  256 ^ 2 * (buf.getD (pos + 2) 0 % 256) + 256 ^ 3 * (buf.getD (pos + 3) 0 % 256) +
  256 ^ 4 * (buf.getD (pos + 4) 0 % 256) + 256 ^ 5 * (buf.getD (pos + 5) 0 % 256) +
  256 ^ 6 * (buf.getD (pos + 6) 0 % 256) + 256 ^ 7 * (buf.getD (pos + 7) 0 % 256)

/-- binary.LittleEndian.PutUint64(buf[pos:], v). -/
def writeU64 (buf : List Nat) (pos v : Nat) : List Nat :=
  (((((((buf.set pos (v % 256)).set (pos + 1) (v / 256 % 256)).set
    (pos + 2) (v / 256 ^ 2 % 256)).set (pos + 3) (v / 256 ^ 3 % 256)).set
    (pos + 4) (v / 256 ^ 4 % 256)).set (pos + 5) (v / 256 ^ 5 % 256)).set
    (pos + 6) (v / 256 ^ 6 % 256)).set (pos + 7) (v / 256 ^ 7 % 256)

/-- copy(dst[dstPos:dstPos+n], src[srcPos:srcPos+n]): byte-wise copy of n bytes;
writes that fall beyond the destination are dropped, as the Go copy builtin
clips at the destination length. -/
def copyBytes (dst src : List Nat) (dstPos srcPos : Nat) : Nat → List Nat
  | 0 => dst
  | n + 1 =>
    copyBytes (dst.set dstPos (src.getD srcPos 0 % 256)) src (dstPos + 1) (srcPos + 1) n

/-- func (node Node) btype() uint16. -/
def btype (node : Node) : Nat := readU16 node 0

/-- func (node Node) nkeys() uint16. -/
def nkeys (node : Node) : Nat := readU16 node 2

/-- func (node Node) setHeader(btype, nkeys uint16). -/
def setHeader (node : Node) (btypeArg nkeysArg : Nat) : Node :=
  writeU16 (writeU16 node 0 btypeArg) 2 nkeysArg

/-- func (node Node) getPtr(idx uint16) uint64; pos is HEADER_SIZE + 8*idx in uint16. -/
def getPtr (node : Node) (idx : Nat) : Nat :=
  readU64 node ((HEADER_SIZE + 8 * idx) % 65536)

/-- func (node Node) setPtr(idx uint16, val uint64). -/
def setPtr (node : Node) (idx val : Nat) : Node :=
  writeU64 node ((HEADER_SIZE + 8 * idx) % 65536) val

/-- func offsetIdx(node Node, pos uint16) uint16; the uint16 subtraction pos-1
wraps to 65535 when pos = 0, rendered as (pos + 65535) % 65536. -/
def offsetIdx (node : Node) (pos : Nat) : Nat :=
  (HEADER_SIZE + 8 * nkeys node + 2 * ((pos + 65535) % 65536)) % 65536

/-- func (node Node) getOffset(idx uint16) uint16. -/
def getOffset (node : Node) (idx : Nat) : Nat :=
  if idx = 0 then 0 else readU16 node (offsetIdx node idx)

/-- func (node Node) setOffset(idx, offset uint16) from btree.go: no guard on idx = 0. -/
def setOffset (node : Node) (idx offset : Nat) : Node :=
  writeU16 node (offsetIdx node idx) offset

/-- func (node Node) kvPos(idx uint16) uint16. -/
def kvPos (node : Node) (idx : Nat) : Nat :=
  (HEADER_SIZE + 8 * nkeys node + 2 * nkeys node + getOffset node idx) % 65536

/-- func (node Node) getKey(idx uint16): node[pos+4:][:klen]. -/
def getKey (node : Node) (idx : Nat) : List Nat :=
  let pos := kvPos node idx
  let klen := readU16 node pos
  (node.drop ((pos + 4) % 65536)).take klen

/-- func (node Node) getVal(idx uint16): the value length is read at
node[pos+klen:] (sic, as in the source; the layout comment [6] of the file
places vlen at pos+2), then node[pos+4:][klen:][:vlen] is returned. -/
def getVal (node : Node) (idx : Nat) : List Nat :=
  let pos := kvPos node idx
  let klen := readU16 node pos
  let vlen := readU16 node ((pos + klen) % 65536)
  ((node.drop ((pos + 4) % 65536)).drop klen).take vlen

/-- func (node Node) nbytes() uint16. -/
def nbytes (node : Node) : Nat := kvPos node (nkeys node)

/-- bytes.Compare on byte slices: lexicographic, shorter prefix first. -/
def bytesCompare : List Nat → List Nat → Ordering
  | [], [] => Ordering.eq
  | [], _ :: _ => Ordering.lt
  | _ :: _, [] => Ordering.gt
  | a :: as, b :: bs =>
    if a < b then Ordering.lt
    else if b < a then Ordering.gt
    else bytesCompare as bs

/-- bytes.Equal on byte slices. -/
def bytesEqual (a b : List Nat) : Bool := a == b

/-- Loop of func nodeLookupLE; the source binds cmp once per iteration to a
pure value, written out here at each use site.  The index i starts at 1 and
found starts at 0; found is updated when cmp is at most 0, and the loop stops
once cmp is at least 0. -/
def nodeLookupLEAux (node : Node) (key : List Nat) (i found : Nat) : Nat :=
  if h : i < nkeys node then
    if bytesCompare (getKey node i) key = Ordering.lt then
      nodeLookupLEAux node key (i + 1)
        (if bytesCompare (getKey node i) key = Ordering.gt then found else i)
    else if bytesCompare (getKey node i) key = Ordering.gt then found else i
  else found
termination_by nkeys node - i
decreasing_by simp_wf; omega

/-- func nodeLookupLE(node Node, key []byte) uint16. -/
def nodeLookupLE (node : Node) (key : List Nat) : Nat :=
  nodeLookupLEAux node key 1 0

/-- Loop of func nodeLookupEQ, scanning from index i. -/
def nodeLookupEQAux (node : Node) (key : List Nat) (i : Nat) : Nat :=
  if h : i < nkeys node then
    if bytesEqual (getKey node i) key then i
    else nodeLookupEQAux node key (i + 1)
  else 0
termination_by nkeys node - i
decreasing_by simp_wf; omega

/-- func nodeLookupEQ(node Node, key []byte) uint16. -/
def nodeLookupEQ (node : Node) (key : List Nat) : Nat :=
  nodeLookupEQAux node key 1

/-- func nodeAppendRange(new, old Node, dstNew, srcOld, n uint16): exactly as
in the source, the destination position is computed from srcOld and the source
position from dstNew (sic), and n raw bytes are copied. -/
def nodeAppendRange (new old : Node) (dstNew srcOld n : Nat) : Node :=
  let dstNewPos := kvPos new srcOld
  let srcOldPos := kvPos old dstNew
  copyBytes new old dstNewPos srcOldPos n

/-- func nodeAppendKV(new Node, idx uint16, ptr uint64, key, val []byte). -/
def nodeAppendKV (new : Node) (idx ptr : Nat) (key val : List Nat) : Node :=
  let new1 := setPtr new idx ptr
  let pos := kvPos new1 idx
  let new2 := writeU16 new1 pos key.length
  let new3 := writeU16 new2 ((pos + 2) % 65536) val.length
  let new4 := copyBytes new3 key ((pos + 4) % 65536) 0 key.length
  let new5 := copyBytes new4 val ((pos + 4 + key.length) % 65536) 0 val.length
  setOffset new5 ((idx + 1) % 65536)
    (getOffset new5 idx + 4 + (key.length + val.length) % 65536)

/-- func leafInsert(new, old Node, idx uint16, key, val []byte); the count of
the final range copy is the uint16 subtraction old.nkeys() - idx. -/
def leafInsert (new old : Node) (idx : Nat) (key val : List Nat) : Node :=
  let new1 := setHeader new BNODE_LEAF_TYPE (nkeys old + 1)
  let new2 := nodeAppendRange new1 old 0 0 idx
  let new3 := nodeAppendKV new2 idx 0 key val
  nodeAppendRange new3 old ((idx + 1) % 65536) idx
    ((nkeys old + 65536 - idx % 65536) % 65536)

/-- The second source file declares the same codec; it names the offset
position helper offsetPos. -/
def Part000.offsetPos (node : Node) (idx : Nat) : Nat :=
  (HEADER_SIZE + 8 * nkeys node + 2 * ((idx + 65535) % 65536)) % 65536

/-- func (node Node) setOffset(idx, offset uint16) from the second source
file: unlike btree.go, it returns with the buffer unchanged when idx = 0. -/
def Part000.setOffset (node : Node) (idx offset : Nat) : Node :=
  if idx = 0 then node
  else writeU16 node (Part000.offsetPos node idx) offset

/-
Two-buffer rendering of the Builder operations.  In Go the destination and
the source are two distinct byte slices and every write in the source text
goes through the destination receiver; the state carries both buffers so that
the frame property (the source buffer is untouched) is expressible.
-/

structure Buffers where
  dst : List Nat
  src : List Nat

/-- nodeAppendRange with the two buffers held in one state; only the
destination component is written. -/
def nodeAppendRange2 (s : Buffers) (dstNew srcOld n : Nat) : Buffers :=
  { s with dst := copyBytes s.dst s.src (kvPos s.dst srcOld) (kvPos s.src dstNew) n }

/-- nodeAppendKV with the two buffers held in one state; its body reads and
writes only the destination buffer. -/
def nodeAppendKV2 (s : Buffers) (idx ptr : Nat) (key val : List Nat) : Buffers :=
  { s with dst := nodeAppendKV s.dst idx ptr key val }

/-- leafInsert with the two buffers held in one state; the source buffer is
only ever read (its key count and its copied ranges). -/
def leafInsert2 (s : Buffers) (idx : Nat) (key val : List Nat) : Buffers :=
  let s1 : Buffers := { s with dst := setHeader s.dst BNODE_LEAF_TYPE (nkeys s.src + 1) }
  let s2 := nodeAppendRange2 s1 0 0 idx
  let s3 := nodeAppendKV2 s2 idx 0 key val
  nodeAppendRange2 s3 ((idx + 1) % 65536) idx
    ((nkeys s3.src + 65536 - idx % 65536) % 65536)

/-
Concrete nodes used as inputs of the evaluations below.
-/

/-- A leaf node with keys b, d, f and values 2, 4, 6: header, three zero child
pointers, cumulative offsets 6, 12, 18, and three KV entries of six bytes
each; nbytes is 52. -/
def oldBDF : Node :=
  [1, 0, 3, 0] ++ List.replicate 24 0 ++ [6, 0, 12, 0, 18, 0] ++
  [1, 0, 1, 0, 98, 50, 1, 0, 1, 0, 100, 52, 1, 0, 1, 0, 102, 54]

/-- leafInsert of key c, value 3 at index 1 into a fresh zeroed output buffer. -/
def newBDF : Node := leafInsert (List.replicate 64 0) oldBDF 1 [99] [51]

/-- A fresh output buffer with a one-entry leaf header, then nodeAppendKV of
pointer 7, key a, value x at index 0. -/
def kvNode : Node :=
  nodeAppendKV (setHeader (List.replicate 64 0) BNODE_LEAF_TYPE 1) 0 7 [97] [120]

/-- An internal node with one entry: child pointer 5, key a, value x. -/
def oldOneKV : Node :=
  [0, 0, 1, 0] ++ [5, 0, 0, 0, 0, 0, 0, 0] ++ [6, 0] ++ [1, 0, 1, 0, 97, 120]

/-- nodeAppendRange asked to copy one whole entry of oldOneKV to index 0 of a
fresh buffer carrying a one-entry internal header. -/
def newRange : Node :=
  nodeAppendRange (setHeader (List.replicate 64 0) BNODE_INTERNAL_TYPE 1) oldOneKV 0 0 1

/-- A valid leaf node with nine one-byte ascending keys 65..73, each with the
one-byte value x: nbytes is 148, well within one page. -/
def old9 : Node :=
  [1, 0, 9, 0] ++ List.replicate 72 0 ++
  [6, 0, 12, 0, 18, 0, 24, 0, 30, 0, 36, 0, 42, 0, 48, 0, 54, 0] ++
  [1, 0, 1, 0, 65, 120, 1, 0, 1, 0, 66, 120, 1, 0, 1, 0, 67, 120,
   1, 0, 1, 0, 68, 120, 1, 0, 1, 0, 69, 120, 1, 0, 1, 0, 70, 120,
   1, 0, 1, 0, 71, 120, 1, 0, 1, 0, 72, 120, 1, 0, 1, 0, 73, 120]

/-- leafInsert of a maximum-size KV pair (key of 1000 bytes, value of 3000
bytes, both within the per-entry ceilings) at the end of old9, into a fresh
zeroed one-page output buffer. -/
def bigKV : Node :=
  leafInsert (List.replicate 4096 0) old9 9
    (List.replicate 1000 97) (List.replicate 3000 120)

/-- First intermediate buffer of the bigKV run: the header write. -/
def stage1 : Node := setHeader (List.replicate 4096 0) BNODE_LEAF_TYPE (nkeys old9 + 1)

/-- Second intermediate buffer of the bigKV run: the prefix range copy. -/
def stage2 : Node := nodeAppendRange stage1 old9 0 0 9

/-- Third intermediate buffer of the bigKV run: the big KV append. -/
def stage3 : Node :=
  nodeAppendKV stage2 9 0 (List.replicate 1000 97) (List.replicate 3000 120)

/-- The buffer reached inside nodeAppendKV just before its setOffset call,
with the positions written out (the KV of stage2 starts at byte 104). -/
def nn5 : Node :=
  copyBytes (copyBytes (writeU16 (writeU16 (setPtr stage2 9 0) 104 1000)
      ((104 + 2) % 65536) 3000)
    (List.replicate 1000 97) ((104 + 4) % 65536) 0 1000)
    (List.replicate 3000 120) ((104 + 4 + 1000) % 65536) 0 3000

/-
Theorems.  First the generic helper lemmas about the byte primitives, then
the lemmas that evaluate the bigKV run, then the order theory of
bytesCompare, the loop invariants of the two lookup functions, and finally
the claim theorems with their witnesses.
-/

theorem copyBytes_zero (dst src : List Nat) (a b : Nat) : copyBytes dst src a b 0 = dst := rfl

theorem length_copyBytes (src : List Nat) :
    ∀ (n : Nat) (dst : List Nat) (dstPos srcPos : Nat),
      (copyBytes dst src dstPos srcPos n).length = dst.length
  | 0, _, _, _ => rfl
  | n + 1, dst, dstPos, srcPos => by
    show (copyBytes (dst.set dstPos (src.getD srcPos 0 % 256)) src
      (dstPos + 1) (srcPos + 1) n).length = dst.length
    rw [length_copyBytes src n, List.length_set]

theorem getD_set_ne (l : List Nat) (i j v d : Nat) (h : j ≠ i) :
    (l.set i v).getD j d = l.getD j d := by
  simp only [List.getD_eq_getElem?_getD, List.getElem?_set_ne (Ne.symm h)]

theorem getD_set_self (l : List Nat) (i v d : Nat) (h : i < l.length) :
    (l.set i v).getD i d = v := by
  simp only [List.getD_eq_getElem?_getD, List.getElem?_set_self h, Option.getD_some]

theorem getD_replicate (i n a d : Nat) (h : i < n) :
    (List.replicate n a).getD i d = a := by
  simp only [List.getD_eq_getElem?_getD, List.getElem?_replicate_of_lt h, Option.getD_some]

theorem getD_copyBytes_lt (src : List Nat) :
    ∀ (n : Nat) (dst : List Nat) (dstPos srcPos p d : Nat), p < dstPos →
      (copyBytes dst src dstPos srcPos n).getD p d = dst.getD p d
  | 0, _, _, _, _, _, _ => rfl
  | n + 1, dst, dstPos, srcPos, p, d, h => by
    show (copyBytes (dst.set dstPos (src.getD srcPos 0 % 256)) src
      (dstPos + 1) (srcPos + 1) n).getD p d = dst.getD p d
    rw [getD_copyBytes_lt src n _ _ _ _ _ (by omega), getD_set_ne _ _ _ _ _ (by omega)]

theorem nkeys_eq (node : Node) :
    nkeys node = node.getD 2 0 % 256 + 256 * (node.getD 3 0 % 256) := by
  unfold nkeys readU16
  rw [show (2 + 1 : Nat) = 3 from rfl]

theorem readU16_eq (buf : List Nat) (pos : Nat) :
    readU16 buf pos = buf.getD pos 0 % 256 + 256 * (buf.getD (pos + 1) 0 % 256) := rfl

theorem getOffset_pos (node : Node) (idx : Nat) (h : ¬ idx = 0) :
    getOffset node idx = readU16 node (offsetIdx node idx) := by
  unfold getOffset
  rw [if_neg h]

theorem offsetIdx_eq (node : Node) (pos : Nat) :
    offsetIdx node pos = (4 + 8 * nkeys node + 2 * ((pos + 65535) % 65536)) % 65536 := rfl

theorem kvPos_eq (node : Node) (idx : Nat) :
    kvPos node idx = (4 + 8 * nkeys node + 2 * nkeys node + getOffset node idx) % 65536 := rfl

theorem nbytes_eq (node : Node) : nbytes node = kvPos node (nkeys node) := rfl

theorem setOffset_eq (node : Node) (idx offset : Nat) :
    setOffset node idx offset = writeU16 node (offsetIdx node idx) offset := rfl

theorem writeU16_eq (buf : List Nat) (pos v : Nat) :
    writeU16 buf pos v = (buf.set pos (v % 256)).set (pos + 1) (v / 256 % 256) := rfl

theorem h_old9_nkeys : nkeys old9 = 9 := by decide

theorem stage3_unfold : stage3 =
    nodeAppendKV (nodeAppendRange (setHeader (List.replicate 4096 0) BNODE_LEAF_TYPE
      (nkeys old9 + 1)) old9 0 0 9) 9 0
      (List.replicate 1000 97) (List.replicate 3000 120) := rfl

set_option maxRecDepth 1000 in
theorem bigKV_unfold : bigKV =
    nodeAppendKV (nodeAppendRange (setHeader (List.replicate 4096 0) BNODE_LEAF_TYPE
      (nkeys old9 + 1)) old9 0 0 9) 9 0
      (List.replicate 1000 97) (List.replicate 3000 120) := rfl

theorem bigKV_eq_stage3 : bigKV = stage3 := bigKV_unfold.trans stage3_unfold.symm

theorem s2_kv9 : kvPos (setPtr stage2 9 0) 9 = 104 := by decide

theorem s2_len : stage2.length = 4096 := by
  rw [stage2]
  simp only [nodeAppendRange, length_copyBytes, stage1, setHeader, writeU16,
    List.length_set, List.length_replicate]

theorem s1_kv0 : kvPos stage1 0 = 104 := by decide

theorem s2_g2 : stage2.getD 2 0 = 10 := by
  rw [stage2]
  simp only [nodeAppendRange, s1_kv0]
  rw [getD_copyBytes_lt _ _ _ _ _ _ _ (by omega)]
  rw [stage1]
  simp only [setHeader, writeU16, h_old9_nkeys]
  rw [getD_set_ne _ _ _ _ _ (by omega),
    getD_set_self _ _ _ _ (by simp only [List.length_set, List.length_replicate]; omega)]

theorem s2_g3 : stage2.getD 3 0 = 0 := by
  rw [stage2]
  simp only [nodeAppendRange, s1_kv0]
  rw [getD_copyBytes_lt _ _ _ _ _ _ _ (by omega)]
  rw [stage1]
  simp only [setHeader, writeU16, h_old9_nkeys]
  rw [getD_set_self _ _ _ _ (by simp only [List.length_set, List.length_replicate]; omega)]

theorem s2_g100 : stage2.getD 100 0 = 0 := by
  rw [stage2]
  simp only [nodeAppendRange, s1_kv0]
  rw [getD_copyBytes_lt _ _ _ _ _ _ _ (by omega)]
  rw [stage1]
  simp only [setHeader, writeU16]
  rw [getD_set_ne _ _ _ _ _ (by omega), getD_set_ne _ _ _ _ _ (by omega),
    getD_set_ne _ _ _ _ _ (by omega), getD_set_ne _ _ _ _ _ (by omega),
    getD_replicate _ _ _ _ (by omega)]

theorem s2_g101 : stage2.getD 101 0 = 0 := by
  rw [stage2]
  simp only [nodeAppendRange, s1_kv0]
  rw [getD_copyBytes_lt _ _ _ _ _ _ _ (by omega)]
  rw [stage1]
  simp only [setHeader, writeU16]
  rw [getD_set_ne _ _ _ _ _ (by omega), getD_set_ne _ _ _ _ _ (by omega),
    getD_set_ne _ _ _ _ _ (by omega), getD_set_ne _ _ _ _ _ (by omega),
    getD_replicate _ _ _ _ (by omega)]

theorem n5_g2 : nn5.getD 2 0 = 10 := by
  rw [nn5]
  rw [getD_copyBytes_lt _ _ _ _ _ _ _ (by omega), getD_copyBytes_lt _ _ _ _ _ _ _ (by omega)]
  simp only [writeU16, setPtr, writeU64, HEADER_SIZE]
  rw [getD_set_ne _ _ _ _ _ (by omega), getD_set_ne _ _ _ _ _ (by omega),
    getD_set_ne _ _ _ _ _ (by omega), getD_set_ne _ _ _ _ _ (by omega),
    getD_set_ne _ _ _ _ _ (by omega), getD_set_ne _ _ _ _ _ (by omega),
    getD_set_ne _ _ _ _ _ (by omega), getD_set_ne _ _ _ _ _ (by omega),
    getD_set_ne _ _ _ _ _ (by omega), getD_set_ne _ _ _ _ _ (by omega),
    getD_set_ne _ _ _ _ _ (by omega), getD_set_ne _ _ _ _ _ (by omega),
    s2_g2]

theorem n5_g3 : nn5.getD 3 0 = 0 := by
  rw [nn5]
  rw [getD_copyBytes_lt _ _ _ _ _ _ _ (by omega), getD_copyBytes_lt _ _ _ _ _ _ _ (by omega)]
  simp only [writeU16, setPtr, writeU64, HEADER_SIZE]
  rw [getD_set_ne _ _ _ _ _ (by omega), getD_set_ne _ _ _ _ _ (by omega),
    getD_set_ne _ _ _ _ _ (by omega), getD_set_ne _ _ _ _ _ (by omega),
    getD_set_ne _ _ _ _ _ (by omega), getD_set_ne _ _ _ _ _ (by omega),
    getD_set_ne _ _ _ _ _ (by omega), getD_set_ne _ _ _ _ _ (by omega),
    getD_set_ne _ _ _ _ _ (by omega), getD_set_ne _ _ _ _ _ (by omega),
    getD_set_ne _ _ _ _ _ (by omega), getD_set_ne _ _ _ _ _ (by omega),
    s2_g3]

theorem n5_g100 : nn5.getD 100 0 = 0 := by
  rw [nn5]
  rw [getD_copyBytes_lt _ _ _ _ _ _ _ (by omega), getD_copyBytes_lt _ _ _ _ _ _ _ (by omega)]
  simp only [writeU16, setPtr, writeU64, HEADER_SIZE]
  rw [getD_set_ne _ _ _ _ _ (by omega), getD_set_ne _ _ _ _ _ (by omega),
    getD_set_ne _ _ _ _ _ (by omega), getD_set_ne _ _ _ _ _ (by omega),
    getD_set_ne _ _ _ _ _ (by omega), getD_set_ne _ _ _ _ _ (by omega),
    getD_set_ne _ _ _ _ _ (by omega), getD_set_ne _ _ _ _ _ (by omega),
    getD_set_ne _ _ _ _ _ (by omega), getD_set_ne _ _ _ _ _ (by omega),
    getD_set_ne _ _ _ _ _ (by omega), getD_set_ne _ _ _ _ _ (by omega),
    s2_g100]

theorem n5_g101 : nn5.getD 101 0 = 0 := by
  rw [nn5]
  rw [getD_copyBytes_lt _ _ _ _ _ _ _ (by omega), getD_copyBytes_lt _ _ _ _ _ _ _ (by omega)]
  simp only [writeU16, setPtr, writeU64, HEADER_SIZE]
  rw [getD_set_ne _ _ _ _ _ (by omega), getD_set_ne _ _ _ _ _ (by omega),
    getD_set_ne _ _ _ _ _ (by omega), getD_set_ne _ _ _ _ _ (by omega),
    getD_set_ne _ _ _ _ _ (by omega), getD_set_ne _ _ _ _ _ (by omega),
    getD_set_ne _ _ _ _ _ (by omega), getD_set_ne _ _ _ _ _ (by omega),
    getD_set_ne _ _ _ _ _ (by omega), getD_set_ne _ _ _ _ _ (by omega),
    getD_set_ne _ _ _ _ _ (by omega), getD_set_ne _ _ _ _ _ (by omega),
    s2_g101]

theorem nn5_len : nn5.length = 4096 := by
  rw [nn5]
  simp only [length_copyBytes, writeU16, List.length_set, setPtr, writeU64, s2_len]

theorem stage3_eq : stage3 =
    setOffset nn5 ((9 + 1) % 65536) (getOffset nn5 9 + 4 + (1000 + 3000) % 65536) := by
  simp only [stage3, nodeAppendKV, List.length_replicate, s2_kv9]
  rw [nn5]

theorem nn5_nkeys : nkeys nn5 = 10 := by
  rw [nkeys_eq, n5_g2, n5_g3]

theorem off_100 : offsetIdx nn5 9 = 100 := by
  rw [offsetIdx_eq, nn5_nkeys]

theorem s3_off : getOffset nn5 9 = 0 := by
  rw [getOffset_pos _ _ (by decide), off_100, readU16_eq,
    show (100 + 1 : Nat) = 101 from rfl, n5_g100, n5_g101]

theorem off_102 : offsetIdx nn5 ((9 + 1) % 65536) = 102 := by
  rw [offsetIdx_eq, nn5_nkeys]

theorem s3_form : stage3 = writeU16 nn5 102 4004 := by
  rw [stage3_eq, s3_off, setOffset_eq, off_102,
    show (0 + 4 + (1000 + 3000) % 65536 : Nat) = 4004 from rfl]

theorem w_g2 : (writeU16 nn5 102 4004).getD 2 0 = 10 := by
  rw [writeU16_eq]
  rw [getD_set_ne _ _ _ _ _ (by omega), getD_set_ne _ _ _ _ _ (by omega), n5_g2]

theorem w_g3 : (writeU16 nn5 102 4004).getD 3 0 = 0 := by
  rw [writeU16_eq]
  rw [getD_set_ne _ _ _ _ _ (by omega), getD_set_ne _ _ _ _ _ (by omega), n5_g3]

theorem w_nkeys : nkeys (writeU16 nn5 102 4004) = 10 := by
  rw [nkeys_eq, w_g2, w_g3]

theorem w_g102 : (writeU16 nn5 102 4004).getD 102 0 = 164 := by
  rw [writeU16_eq]
  rw [getD_set_ne _ _ _ _ _ (by omega),
    getD_set_self _ _ _ _ (by rw [nn5_len]; omega)]

theorem w_g103 : (writeU16 nn5 102 4004).getD 103 0 = 15 := by
  rw [writeU16_eq, show (102 + 1 : Nat) = 103 from rfl]
  rw [getD_set_self _ _ _ _ (by rw [List.length_set, nn5_len]; omega)]

theorem w_off : getOffset (writeU16 nn5 102 4004) 10 = 4004 := by
  have ho : offsetIdx (writeU16 nn5 102 4004) 10 = 102 := by
    rw [offsetIdx_eq, w_nkeys]
  rw [getOffset_pos _ _ (by decide), ho, readU16_eq,
    show (102 + 1 : Nat) = 103 from rfl, w_g102, w_g103]

theorem bytesCompare_eq_iff : ∀ a b : List Nat, bytesCompare a b = Ordering.eq ↔ a = b
  | [], [] => by simp [bytesCompare]
  | [], b :: bs => by simp [bytesCompare]
  | a :: as, [] => by simp [bytesCompare]
  | a :: as, b :: bs => by
    simp only [bytesCompare, List.cons.injEq]
    split_ifs with h1 h2
    · constructor
      · intro h; exact absurd h (by decide)
      · rintro ⟨rfl, _⟩; omega
    · constructor
      · intro h; exact absurd h (by decide)
      · rintro ⟨rfl, _⟩; omega
    · have hab : a = b := by omega
      rw [bytesCompare_eq_iff as bs]
      simp [hab]

theorem bytesCompare_swap : ∀ a b : List Nat,
    bytesCompare b a = Ordering.gt ↔ bytesCompare a b = Ordering.lt
  | [], [] => by simp [bytesCompare]
  | [], b :: bs => by simp [bytesCompare]
  | a :: as, [] => by simp [bytesCompare]
  | a :: as, b :: bs => by
    simp only [bytesCompare]
    rcases Nat.lt_trichotomy a b with h | h | h
    · rw [if_neg (by omega), if_pos h, if_pos h]
      simp
    · subst h
      rw [if_neg (by omega), if_neg (by omega), if_neg (by omega), if_neg (by omega)]
      exact bytesCompare_swap as bs
    · rw [if_pos h, if_neg (by omega), if_pos h]
      simp

theorem bytesCompare_lt_trans : ∀ a b c : List Nat,
    bytesCompare a b = Ordering.lt → bytesCompare b c = Ordering.lt →
    bytesCompare a c = Ordering.lt
  | _, [], [], _, h2 => by simp [bytesCompare] at h2
  | _, b :: bs, [], _, h2 => by simp [bytesCompare] at h2
  | [], [], c :: cs, _, _ => rfl
  | [], b :: bs, c :: cs, _, _ => rfl
  | a :: as, [], c :: cs, h1, _ => by simp [bytesCompare] at h1
  | a :: as, b :: bs, c :: cs, h1, h2 => by
    simp only [bytesCompare] at h1 h2 ⊢
    rcases Nat.lt_trichotomy a b with hab | hab | hab
    · rcases Nat.lt_trichotomy b c with hbc | hbc | hbc
      · rw [if_pos (by omega)]
      · subst hbc; rw [if_pos hab]
      · rw [if_neg (by omega), if_pos hbc] at h2
        exact absurd h2 (by decide)
    · subst hab
      rcases Nat.lt_trichotomy a c with hac | hac | hac
      · rw [if_pos hac]
      · subst hac
        rw [if_neg (by omega), if_neg (by omega)] at h1 h2 ⊢
        exact bytesCompare_lt_trans as bs cs h1 h2
      · rw [if_neg (by omega), if_pos hac] at h2
        exact absurd h2 (by decide)
    · rw [if_neg (by omega), if_pos hab] at h1
      exact absurd h1 (by decide)

theorem nodeLookupLE_def (node : Node) (key : List Nat) :
    nodeLookupLE node key = nodeLookupLEAux node key 1 0 := rfl

theorem nodeLookupEQ_def (node : Node) (key : List Nat) :
    nodeLookupEQ node key = nodeLookupEQAux node key 1 := rfl

theorem nodeLookupLEAux_spec (node : Node) (key : List Nat)
    (hs : ∀ j, j < nkeys node → ∀ i, i < j → 1 ≤ i →
      bytesCompare (getKey node i) (getKey node j) = Ordering.lt) :
    ∀ d i found, nkeys node - i = d → 1 ≤ i → found < i →
    (found ≠ 0 → 1 ≤ found ∧ found < nkeys node ∧
      bytesCompare (getKey node found) key ≠ Ordering.gt) →
    (∀ j, j < i → 1 ≤ j → bytesCompare (getKey node j) key ≠ Ordering.gt → j ≤ found) →
    (nodeLookupLEAux node key i found ≠ 0 →
      1 ≤ nodeLookupLEAux node key i found ∧
      nodeLookupLEAux node key i found < nkeys node ∧
      bytesCompare (getKey node (nodeLookupLEAux node key i found)) key ≠ Ordering.gt) ∧
    (∀ j, j < nkeys node → 1 ≤ j → bytesCompare (getKey node j) key ≠ Ordering.gt →
      j ≤ nodeLookupLEAux node key i found) := by
  intro d
  induction d with
  | zero =>
    intro i found hd hi hfi hf1 hf2
    have hni : ¬ i < nkeys node := by omega
    rw [nodeLookupLEAux, dif_neg hni]
    exact ⟨hf1, fun j hj h1j hcmp => hf2 j (by omega) h1j hcmp⟩
  | succ d ih =>
    intro i found hd hi hfi hf1 hf2
    have hlt : i < nkeys node := by omega
    rw [nodeLookupLEAux, dif_pos hlt]
    cases hc : bytesCompare (getKey node i) key with
    | lt =>
      rw [if_pos rfl, if_neg (show ¬ Ordering.lt = Ordering.gt by decide)]
      refine ih (i + 1) i (by omega) (by omega) (by omega) ?_ ?_
      · intro _
        refine ⟨by omega, hlt, ?_⟩
        rw [hc]; decide
      · intro j hj h1j hcmp
        omega
    | eq =>
      rw [if_neg (show ¬ Ordering.eq = Ordering.lt by decide),
        if_neg (show ¬ Ordering.eq = Ordering.gt by decide)]
      constructor
      · intro _
        refine ⟨hi, hlt, ?_⟩
        rw [hc]; decide
      · intro j hj h1j hcmp
        by_contra hcon
        push_neg at hcon
        have hlt2 := hs j hj i hcon hi
        have hkey : getKey node i = key := (bytesCompare_eq_iff _ _).mp hc
        rw [hkey] at hlt2
        exact hcmp ((bytesCompare_swap key (getKey node j)).mpr hlt2)
    | gt =>
      rw [if_neg (show ¬ Ordering.gt = Ordering.lt by decide), if_pos rfl]
      constructor
      · exact hf1
      · intro j hj h1j hcmp
        rcases Nat.lt_trichotomy j i with h | h | h
        · exact hf2 j h h1j hcmp
        · subst h
          exact absurd hc hcmp
        · have hlt2 := hs j hj i h hi
          have h1 : bytesCompare key (getKey node i) = Ordering.lt :=
            (bytesCompare_swap key (getKey node i)).mp hc
          have h2 : bytesCompare key (getKey node j) = Ordering.lt :=
            bytesCompare_lt_trans _ _ _ h1 hlt2
          exact absurd ((bytesCompare_swap key (getKey node j)).mpr h2) hcmp

theorem nodeLookupLEAux_lt (node : Node) (key : List Nat) :
    ∀ (d i found : Nat), nkeys node - i = d → found < nkeys node →
      nodeLookupLEAux node key i found < nkeys node := by
  intro d
  induction d with
  | zero =>
    intro i found hd hf
    rw [nodeLookupLEAux, dif_neg (by omega)]
    exact hf
  | succ d ih =>
    intro i found hd hf
    have hlt : i < nkeys node := by omega
    rw [nodeLookupLEAux, dif_pos hlt]
    cases hc : bytesCompare (getKey node i) key with
    | lt =>
      rw [if_pos rfl, if_neg (show ¬ Ordering.lt = Ordering.gt by decide)]
      exact ih (i + 1) i (by omega) hlt
    | eq =>
      rw [if_neg (show ¬ Ordering.eq = Ordering.lt by decide),
        if_neg (show ¬ Ordering.eq = Ordering.gt by decide)]
      exact hlt
    | gt =>
      rw [if_neg (show ¬ Ordering.gt = Ordering.lt by decide), if_pos rfl]
      exact hf

theorem nodeLookupEQAux_spec (node : Node) (key : List Nat) :
    ∀ (d i : Nat), nkeys node - i = d → 1 ≤ i →
    (nodeLookupEQAux node key i = 0 →
      ∀ j, j < nkeys node → i ≤ j → bytesEqual (getKey node j) key = false) ∧
    (nodeLookupEQAux node key i ≠ 0 →
      i ≤ nodeLookupEQAux node key i ∧ nodeLookupEQAux node key i < nkeys node ∧
      bytesEqual (getKey node (nodeLookupEQAux node key i)) key = true ∧
      ∀ j, j < nodeLookupEQAux node key i → i ≤ j →
        bytesEqual (getKey node j) key = false) := by
  intro d
  induction d with
  | zero =>
    intro i hd hi
    rw [nodeLookupEQAux, dif_neg (by omega)]
    exact ⟨fun _ j hj hij => absurd hj (by omega), fun h => absurd rfl h⟩
  | succ d ih =>
    intro i hd hi
    have hlt : i < nkeys node := by omega
    rw [nodeLookupEQAux, dif_pos hlt]
    cases he : bytesEqual (getKey node i) key with
    | true =>
      rw [if_pos rfl]
      refine ⟨fun h0 => absurd h0 (by omega), fun _ => ⟨Nat.le_refl i, hlt, he, ?_⟩⟩
      intro j hj hij
      omega
    | false =>
      rw [if_neg (show ¬ false = true by decide)]
      obtain ⟨ih1, ih2⟩ := ih (i + 1) (by omega) (by omega)
      constructor
      · intro h0 j hj hij
        rcases Nat.eq_or_lt_of_le hij with heq | h
        · subst heq
          exact he
        · exact ih1 h0 j hj (by omega)
      · intro h0
        obtain ⟨ha, hb, hcv, hmin⟩ := ih2 h0
        refine ⟨by omega, hb, hcv, ?_⟩
        intro j hj hij
        rcases Nat.eq_or_lt_of_le hij with heq | h
        · subst heq
          exact he
        · exact hmin j hj (by omega)

/-- Coherence of the two-buffer rendering with the single-buffer leafInsert:
the destination component is exactly the leafInsert of the two buffers. -/
theorem leafInsert2_dst (d o : List Nat) (idx : Nat) (key val : List Nat) :
    (leafInsert2 ⟨d, o⟩ idx key val).dst = leafInsert d o idx key val := rfl

/-- C1: nodeAppendKV round-trip fails on getVal.  At a fresh one-entry leaf
buffer, after nodeAppendKV(new, 0, 7, a, x) the pointer and the key read back
exactly, but getVal reads the value length at pos+klen instead of pos+2 (the
layout comment of the source puts vlen at pos+2), so for the 1-byte key it
assembles the length 256 from the high byte of klen and the low byte of vlen
and returns a 45-byte slice clipped at the buffer end instead of x. -/
theorem c1_nodeAppendKV_getVal_divergence :
    getPtr kvNode 0 = 7 ∧ getKey kvNode 0 = [97] ∧
    getVal kvNode 0 ≠ [120] ∧ (getVal kvNode 0).length = 45 := by decide

/-- C2: nodeAppendRange does not copy whole KV entries.  Asked to copy one
entry (child pointer 5, key a, value x) from oldOneKV into a fresh buffer at
index 0, it copies exactly n = 1 raw byte of KV payload (with the destination
position computed from srcOld and the source position from dstNew, swapped
against its own parameter documentation) and touches neither the child
pointer column nor the offset table: the new node reads back pointer 0 and a
key of one zero byte. -/
theorem c2_nodeAppendRange_divergence :
    getPtr oldOneKV 0 = 5 ∧ getKey oldOneKV 0 = [97] ∧
    getPtr newRange 0 = 0 ∧ getKey newRange 0 = [0] := by decide

/-- C3: leafInsert does not build the claimed node.  Inserting key c, value 3
at index 1 into the leaf with keys b, d, f sets the header correctly, but
entry 0 of the output is not the preserved entry (b, 2) of the old node: the
prefix range copy moved only idx = 1 raw byte instead of one whole entry, so
the key read back at index 0 is c, not b. -/
theorem c3_leafInsert_divergence :
    btype newBDF = BNODE_LEAF_TYPE ∧ nkeys newBDF = nkeys oldBDF + 1 ∧
    getKey oldBDF 0 = [98] ∧ getKey newBDF 0 = [99] := by decide

/-- C4: the concrete leafInsert scenario fails.  For the leaf with keys
b, d, f and values 2, 4, 6 (nbytes 52), inserting c, 3 at index 1 should give
keys b, c, d, f and nbytes 58; the code instead yields key c at indices 0 and
1 and nbytes 44, because neither the copied prefix nor the shifted suffix
carries its offsets or payloads. -/
theorem c4_leafInsert_scenario_divergence :
    nkeys newBDF = 4 ∧ nbytes oldBDF = 52 ∧
    getKey newBDF 0 = [99] ∧ getKey newBDF 1 = [99] ∧
    nbytes newBDF = 44 ∧ nbytes newBDF ≠ nbytes oldBDF + 6 := by decide

/-- C5: nodeLookupLE returns the largest index i in 1..nkeys-1 whose key is
at most the search key, and 0 if no such index exists.  Keys at indices
1..nkeys-1 are assumed strictly ascending; at most is bytesCompare not gt. -/
theorem c5_nodeLookupLE_largest_le (node : Node) (key : List Nat)
    (hs : ∀ j, j < nkeys node → ∀ i, i < j → 1 ≤ i →
      bytesCompare (getKey node i) (getKey node j) = Ordering.lt) :
    (nodeLookupLE node key ≠ 0 →
      1 ≤ nodeLookupLE node key ∧ nodeLookupLE node key < nkeys node ∧
      bytesCompare (getKey node (nodeLookupLE node key)) key ≠ Ordering.gt) ∧
    (∀ i, i < nkeys node → 1 ≤ i →
      bytesCompare (getKey node i) key ≠ Ordering.gt → i ≤ nodeLookupLE node key) := by
  rw [nodeLookupLE_def]
  exact nodeLookupLEAux_spec node key hs (nkeys node - 1) 1 0 rfl (Nat.le_refl 1)
    (by omega) (fun h0 => absurd rfl h0) (fun j hj h1j _ => by omega)

/-- Witness for C5 at the leaf with keys b, d, f and search key e: the
sortedness hypothesis holds by evaluation and the theorem applies. -/
theorem c5_nodeLookupLE_witness :
    (∀ j, j < nkeys oldBDF → ∀ i, i < j → 1 ≤ i →
      bytesCompare (getKey oldBDF i) (getKey oldBDF j) = Ordering.lt) ∧
    ((nodeLookupLE oldBDF [101] ≠ 0 →
      1 ≤ nodeLookupLE oldBDF [101] ∧ nodeLookupLE oldBDF [101] < nkeys oldBDF ∧
      bytesCompare (getKey oldBDF (nodeLookupLE oldBDF [101])) [101] ≠ Ordering.gt) ∧
    (∀ i, i < nkeys oldBDF → 1 ≤ i →
      bytesCompare (getKey oldBDF i) [101] ≠ Ordering.gt →
      i ≤ nodeLookupLE oldBDF [101])) :=
  ⟨by decide, c5_nodeLookupLE_largest_le oldBDF [101] (by decide)⟩

/-- C6: nodeLookupEQ returns 0 exactly when no index in 1..nkeys-1 holds a key
byte-equal to the search key; when a match exists it returns the first
matching index, which is at least 1 and below nkeys, so 0 doubles as the
not-found sentinel and is never returned as a found position. -/
theorem c6_nodeLookupEQ_found_iff (node : Node) (key : List Nat) :
    (nodeLookupEQ node key = 0 ↔
      ∀ i, i < nkeys node → 1 ≤ i → bytesEqual (getKey node i) key = false) ∧
    (nodeLookupEQ node key ≠ 0 →
      1 ≤ nodeLookupEQ node key ∧ nodeLookupEQ node key < nkeys node ∧
      bytesEqual (getKey node (nodeLookupEQ node key)) key = true ∧
      ∀ j, j < nodeLookupEQ node key → 1 ≤ j → bytesEqual (getKey node j) key = false) := by
  rw [nodeLookupEQ_def]
  have hspec := nodeLookupEQAux_spec node key (nkeys node - 1) 1 rfl (Nat.le_refl 1)
  constructor
  · constructor
    · intro h0 i hi h1i
      exact hspec.1 h0 i hi h1i
    · intro hall
      by_contra hz
      obtain ⟨ha, hb, hcv, _⟩ := hspec.2 hz
      have hf := hall _ hb (by omega)
      rw [hf] at hcv
      exact absurd hcv (by decide)
  · intro hz
    obtain ⟨ha, hb, hcv, hmin⟩ := hspec.2 hz
    exact ⟨ha, hb, hcv, fun j hj h1j => hmin j hj h1j⟩

/-- Witness for C6 at the leaf with keys b, d, f and search key d. -/
theorem c6_nodeLookupEQ_witness :
    (nodeLookupEQ oldBDF [100] = 0 ↔
      ∀ i, i < nkeys oldBDF → 1 ≤ i → bytesEqual (getKey oldBDF i) [100] = false) ∧
    (nodeLookupEQ oldBDF [100] ≠ 0 →
      1 ≤ nodeLookupEQ oldBDF [100] ∧ nodeLookupEQ oldBDF [100] < nkeys oldBDF ∧
      bytesEqual (getKey oldBDF (nodeLookupEQ oldBDF [100])) [100] = true ∧
      ∀ j, j < nodeLookupEQ oldBDF [100] → 1 ≤ j →
        bytesEqual (getKey oldBDF j) [100] = false) :=
  c6_nodeLookupEQ_found_iff oldBDF [100]

/-- C7: leafInsert enforces no page-size ceiling.  Appending a maximum-size KV
pair (1000-byte key, 3000-byte value) to a valid nine-entry leaf inside a
fresh one-page output buffer produces a node whose nbytes is 4108, above the
4096-byte page-size ceiling; no bounds violation occurs in the Go execution
since the value copy clips at the buffer end. -/
theorem c7_leafInsert_page_overflow :
    nbytes bigKV = 4108 ∧ BTREE_PAGE_SIZE < nbytes bigKV := by
  have h : nbytes bigKV = 4108 := by
    rw [bigKV_eq_stage3, s3_form, nbytes_eq, kvPos_eq, w_nkeys, w_off]
  exact ⟨h, by rw [h]; decide⟩

/-- C8: copy-on-write non-mutation.  In the two-buffer rendering, where the
destination and the source are distinct buffers of one state, leafInsert,
nodeAppendRange and nodeAppendKV leave every byte of the source buffer
unchanged: each write in the source text targets the destination receiver. -/
theorem c8_builder_source_unchanged (s : Buffers) (idx ptr dstNew srcOld n : Nat)
    (key val : List Nat) :
    (leafInsert2 s idx key val).src = s.src ∧
    (nodeAppendRange2 s dstNew srcOld n).src = s.src ∧
    (nodeAppendKV2 s idx ptr key val).src = s.src :=
  ⟨rfl, rfl, rfl⟩

/-- C9 counterexample: the two setOffset implementations differ at idx = 0.
On an 8-byte buffer with key count 0, the btree.go version computes the
uint16-wrapped position 2 and overwrites the key-count field with 5, while
the guarded version of the second source file returns the buffer unchanged. -/
theorem c9_setOffset_differ_at_zero :
    setOffset (List.replicate 8 0) 0 5 ≠ Part000.setOffset (List.replicate 8 0) 0 5 := by
  decide

/-- C9 as amended: for every index of at least 1, the two setOffset
implementations have the identical effect on every buffer and offset value;
they differ only at idx = 0. -/
theorem c9_setOffset_agree_pos (node : Node) (idx offset : Nat) (h : 1 ≤ idx) :
    setOffset node idx offset = Part000.setOffset node idx offset := by
  unfold Part000.setOffset
  rw [if_neg (by omega)]
  rfl

/-- Witness for the amended C9 at idx = 1 on an 8-byte buffer. -/
theorem c9_setOffset_agree_witness :
    1 ≤ 1 ∧ setOffset (List.replicate 8 0) 1 3 = Part000.setOffset (List.replicate 8 0) 1 3 :=
  ⟨by decide, c9_setOffset_agree_pos (List.replicate 8 0) 1 3 (by decide)⟩

/-- C10: both lookups return an index strictly below nkeys whenever nkeys is
at least 1, and both return 0 whenever nkeys is at most 1, for every node and
search key; no sortedness is assumed. -/
theorem c10_lookup_descent_bounds (node : Node) (key : List Nat) :
    (1 ≤ nkeys node → nodeLookupLE node key < nkeys node ∧
      nodeLookupEQ node key < nkeys node) ∧
    (nkeys node ≤ 1 → nodeLookupLE node key = 0 ∧ nodeLookupEQ node key = 0) := by
  constructor
  · intro h1
    constructor
    · rw [nodeLookupLE_def]
      exact nodeLookupLEAux_lt node key (nkeys node - 1) 1 0 rfl (by omega)
    · by_cases hz : nodeLookupEQ node key = 0
      · rw [hz]
        omega
      · rw [nodeLookupEQ_def] at hz ⊢
        exact ((nodeLookupEQAux_spec node key (nkeys node - 1) 1 rfl (Nat.le_refl 1)).2 hz).2.1
  · intro h1
    constructor
    · rw [nodeLookupLE_def, nodeLookupLEAux, dif_neg (by omega)]
    · rw [nodeLookupEQ_def, nodeLookupEQAux, dif_neg (by omega)]

/-- Witness for C10 at the leaf with keys b, d, f and search key a. -/
theorem c10_lookup_descent_witness :
    1 ≤ nkeys oldBDF ∧ nodeLookupLE oldBDF [97] < nkeys oldBDF ∧
    nodeLookupEQ oldBDF [97] < nkeys oldBDF :=
  ⟨by decide, ((c10_lookup_descent_bounds oldBDF [97]).1 (by decide)).1,
    ((c10_lookup_descent_bounds oldBDF [97]).1 (by decide)).2⟩

end GoDB
